import Mathlib

/-!
Verification development for the TinyLink backend (link lifecycle and
code-allocation subsystem).

The persisted state is the MongoDB `links` collection, embedded as a list of
`LinkRecord`s.  The store primitives mirror the Mongoose operations used by
the service layer (`findOne`, document `save` under the unique index on
`shortCode`, `findOneAndDelete`), and the service operations are translated
line by line from `LinkService` (src/services/link.service.js) and the
redirect path of `LinkController` (src/controllers/link.controller.js).

Two components of the repository are referenced by the service but their
files are not part of the sources at hand (`src/constants/regex.js` and
`src/utils/generateCode.js`); they are modelled from the spec, as marked on
their doc comments.
-/

deriving instance DecidableEq for Except

namespace TinyLink

/-- Mirror of src/constants/messages.js: the user-facing message strings the
service throws and the controller matches on. -/
structure Messages where
  LINK_CREATED : String
  LINK_DELETED : String
  LINK_NOT_FOUND : String
  CODE_EXISTS : String
  INVALID_URL : String
  INVALID_CODE : String
  SERVER_ERROR : String
deriving DecidableEq

/-- The MESSAGES constant of src/constants/messages.js. -/
def MESSAGES : Messages :=
  { LINK_CREATED := "Link created successfully"
    LINK_DELETED := "Link deleted successfully"
    LINK_NOT_FOUND := "Link not found"
    CODE_EXISTS := "Short code already exists"
    INVALID_URL := "Invalid URL provided"
    INVALID_CODE := "Invalid short code format"
    SERVER_ERROR := "Internal server error" }

/-- A persisted link document, after src/models/LinkModel.js (timestamps are
abstracted as naturals; `lastClicked` defaults to null, `clicks` to 0). -/
structure LinkRecord where
  shortCode : String
  originalUrl : String
  clicks : Nat
  lastClicked : Option Nat
  createdAt : Nat
deriving DecidableEq

/-- The `links` collection: the store owned by the persistence layer. -/
abbrev Store := List LinkRecord

/-- Mongoose `Link.findOne({ shortCode: code })`: point lookup by code. -/
def findOne (s : Store) (code : String) : Option LinkRecord :=
  s.find? (fun r => decide (r.shortCode = code))

/-- Number of documents in the collection carrying a given code. -/
def occ (s : Store) (code : String) : Nat :=
  s.countP (fun r => decide (r.shortCode = code))

/-- The raw duplicate-key error raised by MongoDB when an insert violates the
unique index on `shortCode` (LinkModel.js declares `unique: true`).  This is
a storage-layer error, distinct from every MESSAGES string. -/
def dupKeyMessage : String := "E11000 duplicate key error"

/-- Document insert of a new link (`new Link(...).save()`): under the unique
index on `shortCode` declared in src/models/LinkModel.js the insert succeeds
exactly when no document with that code exists, else MongoDB rejects it with
a duplicate-key error.  The existence test and the insert here are one
indivisible store step. -/
def saveNew (s : Store) (r : LinkRecord) : Except String Store :=
  match findOne s r.shortCode with
  | some _ => Except.error dupKeyMessage
  | none => Except.ok (r :: s)

/-- Document `save()` on an already-persisted document: writes the document's
current in-memory field values over the stored document with the same key
(codes are unique in every reachable store, so keying on `shortCode` matches
keying on the document id). -/
def saveDoc (s : Store) (r : LinkRecord) : Store :=
  s.map (fun x => if x.shortCode = r.shortCode then r else x)

/-- Modelled from the spec: src/constants/regex.js (CODE_REGEX) is not among
the sources; the spec fixes the short-code format as 6 to 8 characters drawn
from the alphanumeric alphabet (upper and lower case letters and digits).
This is the test the service applies via `CODE_REGEX.test(shortCode)`. -/
def CODE_REGEX_test (c : String) : Bool :=
  decide (6 ≤ c.toList.length) && decide (c.toList.length ≤ 8)
    && c.toList.all Char.isAlphanum

/-- The 62-character alphabet of §4.1 of the spec. -/
def CODE_ALPHABET : List Char :=
  "ABCDEFGHIJKLMNOPQRSTUVWXYZabcdefghijklmnopqrstuvwxyz0123456789".toList

/-- Modelled from the spec: src/utils/generateCode.js is not among the
sources; §4.1 specifies a pure function of an entropy source producing a
candidate of fixed length within the configured 6 to 8 bounds, drawn from
the alphanumeric alphabet.  The model reads seven base-62 digits off the
entropy value. -/
def generateCode (entropy : Nat) : String :=
  String.mk ((List.range 7).map
    (fun i => CODE_ALPHABET.getD ((entropy / 62 ^ i) % 62) 'a'))

/-- Step 2 of LinkService.createLink: `let shortCode = customCode; if
(!shortCode) shortCode = generateCode();`.  A missing custom code and the
empty string are both falsy in JavaScript, so both select the generated
candidate. -/
def chosenCode (customCode : Option String) (generated : String) : String :=
  match customCode with
  | none => generated
  | some c => if c = "" then generated else c

/-- LinkService.createLink, translated step by step.  The platform URL parser
(`new URL(originalUrl)` throwing or not) is abstracted as the `validUrl`
oracle, and the random candidate the service would draw from `generateCode()`
is the `generated` argument.  Returns the thrown message or the created
document, together with the resulting store (unchanged on failure). -/
def createLink (validUrl : String → Bool) (generated : String) (s : Store)
    (now : Nat) (originalUrl : String) (customCode : Option String) :
    Except String LinkRecord × Store :=
  if validUrl originalUrl then
    let shortCode := chosenCode customCode generated
    if CODE_REGEX_test shortCode then
      match findOne s shortCode with
      | some _ => (Except.error MESSAGES.CODE_EXISTS, s)
      | none =>
          let newLink : LinkRecord :=
            { shortCode := shortCode, originalUrl := originalUrl,
              clicks := 0, lastClicked := none, createdAt := now }
          match saveNew s newLink with
          | Except.ok s2 => (Except.ok newLink, s2)
          | Except.error e => (Except.error e, s)
    else (Except.error MESSAGES.INVALID_CODE, s)
  else (Except.error MESSAGES.INVALID_URL, s)

/-- The projection returned by LinkService.getAllLinks
(`Link.find({}, 'shortCode originalUrl clicks lastClicked')`). -/
structure LinkProjection where
  shortCode : String
  originalUrl : String
  clicks : Nat
  lastClicked : Option Nat
deriving DecidableEq

/-- LinkService.getAllLinks: all documents under the dashboard projection. -/
def getAllLinks (s : Store) : List LinkProjection :=
  s.map (fun r =>
    { shortCode := r.shortCode, originalUrl := r.originalUrl,
      clicks := r.clicks, lastClicked := r.lastClicked })

/-- LinkService.getLinkByCode: `Link.findOne({ shortCode: code })`. -/
def getLinkByCode (s : Store) (code : String) : Option LinkRecord :=
  findOne s code

/-- LinkService.incrementClicks: mutates the in-memory document
(`link.clicks += 1; link.lastClicked = new Date()`) and writes it back with
`link.save()`.  Returns the updated document and the store after the write. -/
def incrementClicks (s : Store) (link : LinkRecord) (now : Nat) :
    LinkRecord × Store :=
  let updated : LinkRecord :=
    { link with clicks := link.clicks + 1, lastClicked := some now }
  (updated, saveDoc s updated)

/-- LinkService.deleteLink: `Link.findOneAndDelete({ shortCode: code })`,
throwing LINK_NOT_FOUND when nothing matched. -/
def deleteLink (s : Store) (code : String) : Except String LinkRecord × Store :=
  match findOne s code with
  | none => (Except.error MESSAGES.LINK_NOT_FOUND, s)
  | some r => (Except.ok r, s.eraseP (fun x => decide (x.shortCode = code)))

/-- The resolve path of LinkController.redirectLink: look the code up via
getLinkByCode; absent codes yield NotFound and leave the store untouched;
present codes go through incrementClicks and the updated document is
returned (the controller then redirects to its originalUrl). -/
def resolve (s : Store) (now : Nat) (code : String) :
    Except String LinkRecord × Store :=
  match getLinkByCode s code with
  | none => (Except.error MESSAGES.LINK_NOT_FOUND, s)
  | some link =>
      let r := incrementClicks s link now
      (Except.ok r.1, r.2)

/-- Codes are pairwise distinct across the collection: the uniqueness
invariant the unique index maintains. -/
def uniqueCodes (s : Store) : Prop :=
  s.Pairwise (fun a b => a.shortCode ≠ b.shortCode)

/-- Concrete sample document used to instantiate theorems. -/
def rec0 : LinkRecord :=
  { shortCode := "abc123", originalUrl := "https://example.com",
    clicks := 0, lastClicked := none, createdAt := 0 }

/-- The sample document after one resolution at time 5. -/
def rec1 : LinkRecord :=
  { shortCode := "abc123", originalUrl := "https://example.com",
    clicks := 1, lastClicked := some 5, createdAt := 0 }

/-- Concrete sample document whose code equals `generateCode 0`. -/
def recA : LinkRecord :=
  { shortCode := "AAAAAAA", originalUrl := "https://e.net",
    clicks := 2, lastClicked := some 1, createdAt := 0 }

/-- Concrete sample document as created from the generated code "gen1234". -/
def recGen : LinkRecord :=
  { shortCode := "gen1234", originalUrl := "https://example.com",
    clicks := 0, lastClicked := none, createdAt := 3 }

/-- Oracle for the platform URL parser on inputs it accepts. -/
def urlAlwaysParses : String → Bool := fun _ => true

/-- Oracle for the platform URL parser on inputs it rejects. -/
def urlNeverParses : String → Bool := fun _ => false

theorem findOne_mem {s : Store} {code : String} {r : LinkRecord}
    (h : findOne s code = some r) : r ∈ s :=
  List.mem_of_find?_eq_some h

theorem findOne_code {s : Store} {code : String} {r : LinkRecord}
    (h : findOne s code = some r) : r.shortCode = code := by
  unfold findOne at h
  have h2 := List.find?_some h
  simpa using h2

theorem findOne_eq_none_iff {s : Store} {code : String} :
    findOne s code = none ↔ ∀ r ∈ s, r.shortCode ≠ code := by
  simp [findOne, List.find?_eq_none]

theorem occ_eq_zero_of_findOne_none {s : Store} {code : String}
    (h : findOne s code = none) : occ s code = 0 := by
  rw [occ, List.countP_eq_zero]
  intro r hr
  simp only [decide_eq_true_eq]
  exact (findOne_eq_none_iff.mp h) r hr

theorem occ_pos_of_findOne_some {s : Store} {code : String} {r : LinkRecord}
    (h : findOne s code = some r) : 1 ≤ occ s code := by
  rw [occ, Nat.succ_le, List.countP_pos_iff]
  exact ⟨r, findOne_mem h, by simp [findOne_code h]⟩

theorem uniqueCodes_eq_of_mem {s : Store} {a b : LinkRecord}
    (hu : uniqueCodes s) (ha : a ∈ s) (hb : b ∈ s)
    (hc : a.shortCode = b.shortCode) : a = b := by
  induction s with
  | nil => cases ha
  | cons x t ih =>
      have hx := (List.pairwise_cons.mp hu).1
      have ht := (List.pairwise_cons.mp hu).2
      rcases List.mem_cons.mp ha with rfl | ha2
      · rcases List.mem_cons.mp hb with rfl | hb2
        · rfl
        · exact absurd hc (hx b hb2)
      · rcases List.mem_cons.mp hb with rfl | hb2
        · exact absurd hc.symm (hx a ha2)
        · exact ih ht ha2 hb2

theorem CODE_REGEX_test_spec {c : String} (h : CODE_REGEX_test c = true) :
    6 ≤ c.toList.length ∧ c.toList.length ≤ 8
      ∧ c.toList.all Char.isAlphanum = true := by
  rw [CODE_REGEX_test] at h
  simp only [Bool.and_eq_true, decide_eq_true_eq] at h
  exact ⟨h.1.1, h.1.2, h.2⟩

theorem CODE_REGEX_test_ne_empty {c : String} (h : CODE_REGEX_test c = true) :
    c ≠ "" := by
  intro he
  rw [he] at h
  exact absurd h (by decide)

theorem generateCode_valid (e : Nat) : CODE_REGEX_test (generateCode e) = true := by
  have halpha : ∀ m, m < 62 → (CODE_ALPHABET.getD m 'a').isAlphanum = true := by
    decide
  have hlist : (generateCode e).toList
      = (List.range 7).map (fun i => CODE_ALPHABET.getD ((e / 62 ^ i) % 62) 'a') :=
    rfl
  rw [CODE_REGEX_test, hlist, List.length_map, List.length_range]
  simp only [Bool.and_eq_true, decide_eq_true_eq, List.all_eq_true, List.mem_map,
    List.mem_range]
  refine ⟨⟨by omega, by omega⟩, ?_⟩
  rintro c ⟨i, hi, rfl⟩
  exact halpha _ (Nat.mod_lt _ (by omega))

theorem occ_eq_one_of_unique {s : Store} {c : String} {r : LinkRecord}
    (hu : uniqueCodes s) (hr : r ∈ s) (hc : r.shortCode = c) : occ s c = 1 := by
  induction s with
  | nil => cases hr
  | cons x t ih =>
      have hx := (List.pairwise_cons.mp hu).1
      have ht := (List.pairwise_cons.mp hu).2
      rcases List.mem_cons.mp hr with rfl | hr2
      · have hz : List.countP (fun a => decide (a.shortCode = c)) t = 0 := by
          rw [List.countP_eq_zero]
          intro a ha
          simp only [decide_eq_true_eq]
          intro hac
          exact hx a ha (hc.trans hac.symm)
        rw [occ, List.countP_cons, hz]
        simp [hc]
      · have hxc : (decide (x.shortCode = c)) = false := by
          simp only [decide_eq_false_iff_not]
          intro hxc2
          exact hx r hr2 (hxc2.trans hc.symm)
        have hrec := ih ht hr2
        rw [occ] at hrec
        rw [occ, List.countP_cons, hxc]
        simp [hrec]

theorem findOne_eraseP {s : Store} {code : String} (hu : uniqueCodes s) :
    findOne (s.eraseP (fun x => decide (x.shortCode = code))) code = none := by
  induction s with
  | nil => rfl
  | cons x t ih =>
      have hx := (List.pairwise_cons.mp hu).1
      have ht := (List.pairwise_cons.mp hu).2
      by_cases h : x.shortCode = code
      · rw [List.eraseP_cons_of_pos (by simp [h])]
        rw [findOne_eq_none_iff]
        intro r hr hrc
        exact hx r hr (h.trans hrc.symm)
      · rw [List.eraseP_cons_of_neg (by simp [h])]
        rw [findOne_eq_none_iff]
        intro r hr
        rcases List.mem_cons.mp hr with rfl | hr2
        · exact h
        · exact findOne_eq_none_iff.mp (ih ht) r hr2

/-- C3 counterexample: with no custom code supplied and the freshly generated
candidate colliding with an existing record, create fails immediately with
CodeExists and the store is unchanged — a generated-code collision is
surfaced to the caller exactly like a custom-code one, with no silent retry
and no AllocationExhausted outcome anywhere in the code. -/
theorem generated_collision_surfaces_code_exists :
    createLink urlAlwaysParses (generateCode 0) [recA] 3 "https://example.com" none
      = (Except.error MESSAGES.CODE_EXISTS, [recA]) := by
  decide

/-- C3 amended: create with no custom code draws a single generated
candidate; if that candidate collides with an existing record, create fails
at once with CodeExists, exactly as a custom-code collision does.  There is
no retry loop and no AllocationExhausted failure. -/
theorem generated_collision_no_retry (validUrl : String → Bool) (s : Store)
    (now e : Nat) (url : String) (r : LinkRecord)
    (hv : validUrl url = true)
    (hcollide : findOne s (generateCode e) = some r) :
    createLink validUrl (generateCode e) s now url none
      = (Except.error MESSAGES.CODE_EXISTS, s) := by
  simp [createLink, chosenCode, hv, generateCode_valid e, hcollide]

theorem generated_collision_no_retry_witness :
    urlAlwaysParses "https://example.com" = true
    ∧ findOne [recA] (generateCode 0) = some recA
    ∧ createLink urlAlwaysParses (generateCode 0) [recA] 7 "https://example.com" none
        = (Except.error MESSAGES.CODE_EXISTS, [recA]) :=
  ⟨rfl, by decide,
    generated_collision_no_retry urlAlwaysParses [recA] 7 0 "https://example.com"
      recA rfl (by decide)⟩

/-- C5 counterexample: the empty string is a supplied custom code that fails
the 6-to-8-alphanumeric format check, yet create does not fail with
InvalidCode — the service's falsy test routes it to auto-generation and the
call succeeds. -/
theorem createLink_empty_code_not_invalid :
    CODE_REGEX_test "" = false
    ∧ createLink urlAlwaysParses "gen1234" [] 3 "https://example.com" (some "")
        = (Except.ok recGen, [recGen]) :=
  ⟨rfl, by decide⟩

/-- C5 amended: create fails with InvalidUrl whenever the URL does not parse,
with InvalidCode for every supplied non-empty custom code failing the format
check (the empty string is falsy and auto-generates instead), and with
CodeExists when the custom code already exists; in each failure case the
store is unchanged, so after a duplicate-custom-code create exactly one
record with that code exists. -/
theorem createLink_error_cases (validUrl : String → Bool) (g : String)
    (s : Store) (now : Nat) (url : String) :
    (validUrl url = false →
      ∀ cc, createLink validUrl g s now url cc = (Except.error MESSAGES.INVALID_URL, s))
    ∧ (∀ c, validUrl url = true → c ≠ "" → CODE_REGEX_test c = false →
        createLink validUrl g s now url (some c)
          = (Except.error MESSAGES.INVALID_CODE, s))
    ∧ (∀ c r, validUrl url = true → CODE_REGEX_test c = true →
        findOne s c = some r →
        createLink validUrl g s now url (some c)
            = (Except.error MESSAGES.CODE_EXISTS, s)
          ∧ (uniqueCodes s →
              occ (createLink validUrl g s now url (some c)).2 c = 1)) := by
  refine ⟨?_, ?_, ?_⟩
  · intro hv cc
    simp [createLink, hv]
  · intro c hv hne hf
    simp [createLink, chosenCode, hv, hne, hf]
  · intro c r hv hf hex
    have hne : c ≠ "" := CODE_REGEX_test_ne_empty hf
    have heq : createLink validUrl g s now url (some c)
        = (Except.error MESSAGES.CODE_EXISTS, s) := by
      simp [createLink, chosenCode, hv, hne, hf, hex]
    refine ⟨heq, fun hu => ?_⟩
    rw [heq]
    exact occ_eq_one_of_unique hu (findOne_mem hex) (findOne_code hex)

theorem createLink_error_cases_witness :
    urlNeverParses "https://example.com" = false
    ∧ createLink urlNeverParses "gen1234" [] 3 "https://example.com" none
        = (Except.error MESSAGES.INVALID_URL, [])
    ∧ createLink urlAlwaysParses "gen1234" [] 3 "https://example.com" (some "ab!")
        = (Except.error MESSAGES.INVALID_CODE, [])
    ∧ createLink urlAlwaysParses "gen1234" [rec0] 3 "https://example.com" (some "abc123")
        = (Except.error MESSAGES.CODE_EXISTS, [rec0])
    ∧ occ (createLink urlAlwaysParses "gen1234" [rec0] 3 "https://example.com"
          (some "abc123")).2 "abc123" = 1 := by
  refine ⟨rfl, ?_, ?_, ?_, ?_⟩
  · exact (createLink_error_cases urlNeverParses "gen1234" [] 3
      "https://example.com").1 rfl none
  · exact (createLink_error_cases urlAlwaysParses "gen1234" [] 3
      "https://example.com").2.1 "ab!" rfl (by decide) (by decide)
  · exact ((createLink_error_cases urlAlwaysParses "gen1234" [rec0] 3
      "https://example.com").2.2 "abc123" rec0 rfl (by decide) (by decide)).1
  · exact ((createLink_error_cases urlAlwaysParses "gen1234" [rec0] 3
      "https://example.com").2.2 "abc123" rec0 rfl (by decide) (by decide)).2
      (by simp [uniqueCodes])

/-- C7: for a URL the platform parser accepts and no custom code, whenever
the generated candidate is not already taken, create succeeds and the new
record carries a 6-to-8-character alphanumeric shortCode, zero clicks and no
lastClicked. -/
theorem createLink_generated_success (validUrl : String → Bool) (s : Store)
    (now e : Nat) (url : String)
    (hv : validUrl url = true)
    (hfresh : findOne s (generateCode e) = none) :
    ∃ r, createLink validUrl (generateCode e) s now url none = (Except.ok r, r :: s)
      ∧ 6 ≤ r.shortCode.toList.length ∧ r.shortCode.toList.length ≤ 8
      ∧ r.shortCode.toList.all Char.isAlphanum = true
      ∧ r.clicks = 0 ∧ r.lastClicked = none := by
  refine ⟨{ shortCode := generateCode e, originalUrl := url, clicks := 0,
            lastClicked := none, createdAt := now }, ?_, ?_, ?_, ?_, rfl, rfl⟩
  · simp [createLink, chosenCode, hv, generateCode_valid e, hfresh, saveNew]
  · exact (CODE_REGEX_test_spec (generateCode_valid e)).1
  · exact (CODE_REGEX_test_spec (generateCode_valid e)).2.1
  · exact (CODE_REGEX_test_spec (generateCode_valid e)).2.2

theorem createLink_generated_success_witness :
    urlAlwaysParses "https://example.com" = true
    ∧ findOne [] (generateCode 0) = none
    ∧ ∃ r, createLink urlAlwaysParses (generateCode 0) [] 9 "https://example.com" none
          = (Except.ok r, r :: [])
        ∧ 6 ≤ r.shortCode.toList.length ∧ r.shortCode.toList.length ≤ 8
        ∧ r.shortCode.toList.all Char.isAlphanum = true
        ∧ r.clicks = 0 ∧ r.lastClicked = none :=
  ⟨rfl, rfl,
    createLink_generated_success urlAlwaysParses [] 9 0 "https://example.com" rfl rfl⟩

/-- C8: creating with a valid URL and a valid fresh custom code succeeds, and
an immediate getByCode on that code returns exactly the created record, with
identical shortCode and originalUrl. -/
theorem create_then_getByCode_roundtrip (validUrl : String → Bool) (g : String)
    (s : Store) (now : Nat) (url code : String)
    (hv : validUrl url = true)
    (hc : CODE_REGEX_test code = true)
    (hfresh : findOne s code = none) :
    ∃ r s2, createLink validUrl g s now url (some code) = (Except.ok r, s2)
      ∧ getLinkByCode s2 code = some r
      ∧ r.shortCode = code ∧ r.originalUrl = url := by
  have hne : code ≠ "" := CODE_REGEX_test_ne_empty hc
  refine ⟨{ shortCode := code, originalUrl := url, clicks := 0,
            lastClicked := none, createdAt := now },
    { shortCode := code, originalUrl := url, clicks := 0,
      lastClicked := none, createdAt := now } :: s, ?_, ?_, rfl, rfl⟩
  · simp [createLink, chosenCode, hv, hne, hc, hfresh, saveNew]
  · rw [getLinkByCode, findOne, List.find?_cons_of_pos _ (by simp)]

theorem create_then_getByCode_roundtrip_witness :
    urlAlwaysParses "https://example.com" = true
    ∧ CODE_REGEX_test "abc123" = true
    ∧ findOne [] "abc123" = none
    ∧ ∃ r s2, createLink urlAlwaysParses "gen1234" [] 4 "https://example.com"
          (some "abc123") = (Except.ok r, s2)
        ∧ getLinkByCode s2 "abc123" = some r
        ∧ r.shortCode = "abc123" ∧ r.originalUrl = "https://example.com" :=
  ⟨rfl, by decide, rfl,
    create_then_getByCode_roundtrip urlAlwaysParses "gen1234" [] 4
      "https://example.com" "abc123" rfl (by decide) rfl⟩

/-- C4: resolve looks the code up; on a hit it returns the updated document
whose clicks went up by exactly one and whose lastClicked is the resolution
time, writing it back to the store; on a miss it signals NotFound and the
store is unchanged. -/
theorem resolve_hit_and_miss (s : Store) (now : Nat) (code : String) :
    (∀ r, findOne s code = some r →
      resolve s now code =
        (Except.ok { r with clicks := r.clicks + 1, lastClicked := some now },
          saveDoc s { r with clicks := r.clicks + 1, lastClicked := some now }))
    ∧ (findOne s code = none →
        resolve s now code = (Except.error MESSAGES.LINK_NOT_FOUND, s)) := by
  constructor
  · intro r h
    simp [resolve, getLinkByCode, h, incrementClicks]
  · intro h
    simp [resolve, getLinkByCode, h]

theorem resolve_hit_and_miss_witness :
    resolve [rec0] 5 "abc123" =
      (Except.ok { rec0 with clicks := rec0.clicks + 1, lastClicked := some 5 },
        saveDoc [rec0] { rec0 with clicks := rec0.clicks + 1, lastClicked := some 5 })
    ∧ resolve [] 5 "abc123" = (Except.error MESSAGES.LINK_NOT_FOUND, []) :=
  ⟨(resolve_hit_and_miss [rec0] 5 "abc123").1 rec0 rfl,
    (resolve_hit_and_miss [] 5 "abc123").2 rfl⟩

/-- C9: deleting an existing code returns exactly that record and removes it;
resolving the code afterwards signals NotFound, and a fresh create with the
same code and a parseable URL then succeeds as a brand-new record — deletion
is terminal for the old record and frees the code for reuse. -/
theorem delete_resolve_create_reuse (validUrl : String → Bool) (g : String)
    (s : Store) (now now2 : Nat) (url code : String) (r : LinkRecord)
    (hu : uniqueCodes s)
    (hex : findOne s code = some r)
    (hv : validUrl url = true)
    (hc : CODE_REGEX_test code = true) :
    ∃ s2, deleteLink s code = (Except.ok r, s2)
      ∧ resolve s2 now code = (Except.error MESSAGES.LINK_NOT_FOUND, s2)
      ∧ ∃ r2, createLink validUrl g s2 now2 url (some code) = (Except.ok r2, r2 :: s2)
          ∧ r2.shortCode = code ∧ r2.originalUrl = url ∧ r2.clicks = 0 := by
  have hne : code ≠ "" := CODE_REGEX_test_ne_empty hc
  have hnone : findOne (s.eraseP (fun x => decide (x.shortCode = code))) code = none :=
    findOne_eraseP hu
  refine ⟨s.eraseP (fun x => decide (x.shortCode = code)), ?_, ?_, ?_⟩
  · simp [deleteLink, hex]
  · simp [resolve, getLinkByCode, hnone]
  · refine ⟨{ shortCode := code, originalUrl := url, clicks := 0,
              lastClicked := none, createdAt := now2 }, ?_, rfl, rfl, rfl⟩
    simp [createLink, chosenCode, hv, hne, hc, hnone, saveNew]

theorem delete_resolve_create_reuse_witness :
    uniqueCodes [rec0]
    ∧ findOne [rec0] "abc123" = some rec0
    ∧ urlAlwaysParses "https://example.com" = true
    ∧ CODE_REGEX_test "abc123" = true
    ∧ ∃ s2, deleteLink [rec0] "abc123" = (Except.ok rec0, s2)
        ∧ resolve s2 11 "abc123" = (Except.error MESSAGES.LINK_NOT_FOUND, s2)
        ∧ ∃ r2, createLink urlAlwaysParses "gen1234" s2 12 "https://example.com"
              (some "abc123") = (Except.ok r2, r2 :: s2)
            ∧ r2.shortCode = "abc123" ∧ r2.originalUrl = "https://example.com"
            ∧ r2.clicks = 0 :=
  ⟨by simp [uniqueCodes], rfl, rfl, by decide,
    delete_resolve_create_reuse urlAlwaysParses "gen1234" [rec0] 11 12
      "https://example.com" "abc123" rec0 (by simp [uniqueCodes]) rfl rfl (by decide)⟩

theorem createLink_store_cases (v : String → Bool) (g : String) (s : Store)
    (now : Nat) (url : String) (cc : Option String) :
    (createLink v g s now url cc).2 = s
    ∨ ∃ nr : LinkRecord, (createLink v g s now url cc).2 = nr :: s
        ∧ findOne s nr.shortCode = none := by
  by_cases h1 : v url = true
  · by_cases h2 : CODE_REGEX_test (chosenCode cc g) = true
    · cases h3 : findOne s (chosenCode cc g) with
      | some r =>
          left
          simp [createLink, h1, h2, h3]
      | none =>
          right
          refine ⟨{ shortCode := chosenCode cc g, originalUrl := url, clicks := 0,
                    lastClicked := none, createdAt := now }, ?_, h3⟩
          simp [createLink, h1, h2, h3, saveNew]
    · rw [Bool.not_eq_true] at h2
      left
      simp [createLink, h1, h2]
  · rw [Bool.not_eq_true] at h1
    left
    simp [createLink, h1]

theorem resolve_store_cases (s : Store) (now : Nat) (c : String) :
    (resolve s now c).2 = s
    ∨ ∃ link, findOne s c = some link
        ∧ (resolve s now c).2
            = saveDoc s { link with clicks := link.clicks + 1, lastClicked := some now } := by
  cases h : findOne s c with
  | none => left; simp [resolve, getLinkByCode, h]
  | some link =>
      right
      exact ⟨link, rfl, by simp [resolve, getLinkByCode, h, incrementClicks]⟩

theorem deleteLink_store_cases (s : Store) (c : String) :
    (deleteLink s c).2 = s
    ∨ (deleteLink s c).2 = s.eraseP (fun x => decide (x.shortCode = c)) := by
  cases h : findOne s c with
  | none => left; simp [deleteLink, h]
  | some r => right; simp [deleteLink, h]

/-- The five operations the service exposes, with their call arguments. -/
inductive Op where
  | create (validUrl : String → Bool) (generated : String) (now : Nat)
      (url : String) (customCode : Option String)
  | getAll
  | getByCode (code : String)
  | resolveOp (now : Nat) (code : String)
  | deleteOp (code : String)

/-- The store left behind by one service operation (reads leave it as is, and
failed writes leave it unchanged by construction of the operations). -/
def applyOp (s : Store) : Op → Store
  | Op.create v g now url cc => (createLink v g s now url cc).2
  | Op.getAll => s
  | Op.getByCode _ => s
  | Op.resolveOp now c => (resolve s now c).2
  | Op.deleteOp c => (deleteLink s c).2

/-- C6: whatever single operation runs on a store with unique codes, a record
existing before and after it (matched on its key) keeps its shortCode and
originalUrl unchanged, and its clicks counter never decreases. -/
theorem link_fields_immutable_clicks_monotone (s : Store) (op : Op)
    (r r2 : LinkRecord) (hu : uniqueCodes s) (hr : r ∈ s)
    (hr2 : r2 ∈ applyOp s op) (hcode : r2.shortCode = r.shortCode) :
    r2.originalUrl = r.originalUrl ∧ r.clicks ≤ r2.clicks := by
  have same : ∀ x : LinkRecord, x ∈ s → x.shortCode = r.shortCode → x = r :=
    fun x hx hxc => uniqueCodes_eq_of_mem hu hx hr hxc
  have fin : r2 ∈ s → r2.originalUrl = r.originalUrl ∧ r.clicks ≤ r2.clicks := by
    intro h2
    have he := same r2 h2 hcode
    subst he
    exact ⟨rfl, Nat.le_refl _⟩
  cases op with
  | getAll => exact fin (by simpa [applyOp] using hr2)
  | getByCode c => exact fin (by simpa [applyOp] using hr2)
  | create v g now url cc =>
      rcases createLink_store_cases v g s now url cc with h | ⟨nr, heq, hfresh⟩
      · simp only [applyOp] at hr2
        rw [h] at hr2
        exact fin hr2
      · simp only [applyOp] at hr2
        rw [heq] at hr2
        rcases List.mem_cons.mp hr2 with rfl | h2
        · exact absurd hcode.symm (findOne_eq_none_iff.mp hfresh r hr)
        · exact fin h2
  | resolveOp now c =>
      rcases resolve_store_cases s now c with h | ⟨link, hfind, heq⟩
      · simp only [applyOp] at hr2
        rw [h] at hr2
        exact fin hr2
      · simp only [applyOp] at hr2
        rw [heq, saveDoc] at hr2
        rcases List.mem_map.mp hr2 with ⟨x, hx, hxe⟩
        by_cases hxc : x.shortCode
            = ({ link with clicks := link.clicks + 1, lastClicked := some now } :
                LinkRecord).shortCode
        · rw [if_pos hxc] at hxe
          subst hxe
          have hlr : link = r := same link (findOne_mem hfind) hcode
          subst hlr
          exact ⟨rfl, Nat.le_succ _⟩
        · rw [if_neg hxc] at hxe
          subst hxe
          exact fin (by simpa using hx)
  | deleteOp c =>
      rcases deleteLink_store_cases s c with h | h
      · simp only [applyOp] at hr2
        rw [h] at hr2
        exact fin hr2
      · simp only [applyOp] at hr2
        rw [h] at hr2
        exact fin ((List.eraseP_sublist _).subset hr2)

theorem link_fields_immutable_clicks_monotone_witness :
    uniqueCodes [rec0] ∧ rec0 ∈ [rec0]
    ∧ rec1 ∈ applyOp [rec0] (Op.resolveOp 5 "abc123")
    ∧ rec1.shortCode = rec0.shortCode
    ∧ rec1.originalUrl = rec0.originalUrl ∧ rec0.clicks ≤ rec1.clicks :=
  ⟨by simp [uniqueCodes], by simp, by decide, rfl,
    (link_fields_immutable_clicks_monotone [rec0] (Op.resolveOp 5 "abc123") rec0 rec1
      (by simp [uniqueCodes]) (by simp) (by decide) rfl).1,
    (link_fields_immutable_clicks_monotone [rec0] (Op.resolveOp 5 "abc123") rec0 rec1
      (by simp [uniqueCodes]) (by simp) (by decide) rfl).2⟩

/-- C10: supplying the empty string as the custom code is falsy in the
service's `if (!shortCode)` test, so create behaves exactly as if no custom
code had been supplied and auto-generates a candidate instead of failing the
format check. -/
theorem createLink_empty_custom_code (validUrl : String → Bool)
    (generated : String) (s : Store) (now : Nat) (url : String) :
    createLink validUrl generated s now url (some "") =
      createLink validUrl generated s now url none := by
  simp [createLink, chosenCode]

/-- Control points of one in-flight createLink call, at store-operation
granularity: the service's separate existence check (`Link.findOne`) and its
subsequent insert (`newLink.save()`), then completion. -/
inductive CreatePhase where
  | check
  | insert
  | done
deriving DecidableEq

/-- One in-flight createLink caller: its control point, what its existence
check observed, and its outcome once done. -/
structure CreateThread where
  phase : CreatePhase
  found : Bool
  res : Option (Except String Unit)
deriving DecidableEq

def initCreateThread : CreateThread :=
  { phase := CreatePhase.check, found := false, res := none }

/-- One atomic store step of a createLink call carrying a fixed valid custom
code: in `check` it runs the service's findOne, aborting with CODE_EXISTS on
a hit and proceeding otherwise; in `insert` it runs `save()`, which the
unique index makes an atomic insert-if-absent that can reject with the raw
duplicate-key error. -/
def createStep (code url : String) (now : Nat) (s : Store) (t : CreateThread) :
    Store × CreateThread :=
  match t.phase with
  | CreatePhase.check =>
      match findOne s code with
      | some _ =>
          (s, { t with phase := CreatePhase.done, found := true, res := some (Except.error MESSAGES.CODE_EXISTS) })
      | none => (s, { t with phase := CreatePhase.insert, found := false })
  | CreatePhase.insert =>
      match saveNew s { shortCode := code, originalUrl := url, clicks := 0, lastClicked := none, createdAt := now } with
      | Except.ok s2 => (s2, { t with phase := CreatePhase.done, res := some (Except.ok ()) })
      | Except.error e => (s, { t with phase := CreatePhase.done, res := some (Except.error e) })
  | CreatePhase.done => (s, t)

/-- Joint state of two concurrent createLink calls over the shared store. -/
structure CreatePair where
  store : Store
  t1 : CreateThread
  t2 : CreateThread
deriving DecidableEq

/-- One scheduling choice: `true` lets the first caller take its next atomic
store step, `false` the second. -/
def createPairStep (code url1 url2 : String) (now1 now2 : Nat)
    (σ : CreatePair) : Bool → CreatePair
  | true =>
      { store := (createStep code url1 now1 σ.store σ.t1).1,
        t1 := (createStep code url1 now1 σ.store σ.t1).2, t2 := σ.t2 }
  | false =>
      { store := (createStep code url2 now2 σ.store σ.t2).1,
        t1 := σ.t1, t2 := (createStep code url2 now2 σ.store σ.t2).2 }

/-- Runs the two concurrent creates under an arbitrary interleaving. -/
def runCreatePair (code url1 url2 : String) (now1 now2 : Nat)
    (σ : CreatePair) (sched : List Bool) : CreatePair :=
  sched.foldl (createPairStep code url1 url2 now1 now2) σ

/-- Number of successes a caller has reported so far. -/
def tally (t : CreateThread) : Nat :=
  if t.res = some (Except.ok ()) then 1 else 0

/-- Per-caller consistency: an outcome is recorded exactly when the caller is
done, and every failure is CODE_EXISTS or the storage duplicate-key
rejection, recorded only while the contended record exists. -/
def threadConsistent (code : String) (s : Store) (t : CreateThread) : Prop :=
  (t.res.isSome ↔ t.phase = CreatePhase.done)
  ∧ (∀ e, t.res = some (Except.error e) →
      (e = MESSAGES.CODE_EXISTS ∨ e = dupKeyMessage) ∧ occ s code = 1)

/-- Inductive invariant of the two-caller system: the number of records with
the contended code equals the number of recorded successes and never exceeds
one, and both callers are consistent. -/
def pairInv (code : String) (σ : CreatePair) : Prop :=
  occ σ.store code = tally σ.t1 + tally σ.t2
  ∧ occ σ.store code ≤ 1
  ∧ threadConsistent code σ.store σ.t1
  ∧ threadConsistent code σ.store σ.t2

theorem createStep_inv (code url : String) (now : Nat) (s : Store)
    (t other : CreateThread)
    (heq : occ s code = tally t + tally other)
    (hle : occ s code ≤ 1)
    (ht : threadConsistent code s t)
    (hother : threadConsistent code s other) :
    occ (createStep code url now s t).1 code
        = tally (createStep code url now s t).2 + tally other
    ∧ occ (createStep code url now s t).1 code ≤ 1
    ∧ threadConsistent code (createStep code url now s t).1
        (createStep code url now s t).2
    ∧ threadConsistent code (createStep code url now s t).1 other := by
  obtain ⟨ph, fd, rs⟩ := t
  cases ph with
  | check =>
      have hres : rs = none := by
        cases hr : rs with
        | none => rfl
        | some v =>
            have hd := ht.1.mp (by simp [hr])
            simp at hd
      subst hres
      have htally0 : tally { phase := CreatePhase.check, found := fd, res := none } = 0 := by
        simp [tally]
      cases hf : findOne s code with
      | some r =>
          have hocc : occ s code = 1 :=
            Nat.le_antisymm hle (occ_pos_of_findOne_some hf)
          simp only [createStep, hf]
          refine ⟨?_, hle, ?_, hother⟩
          · rw [htally0] at heq
            simpa [tally] using heq
          · refine ⟨by simp, ?_⟩
            intro e he
            simp only [Option.some.injEq, Except.error.injEq] at he
            exact ⟨Or.inl he.symm, hocc⟩
      | none =>
          simp only [createStep, hf]
          refine ⟨?_, hle, ?_, hother⟩
          · rw [htally0] at heq
            simpa [tally] using heq
          · exact ⟨by simp, by simp⟩
  | insert =>
      have hres : rs = none := by
        cases hr : rs with
        | none => rfl
        | some v =>
            have hd := ht.1.mp (by simp [hr])
            simp at hd
      subst hres
      have htally0 : tally { phase := CreatePhase.insert, found := fd, res := none } = 0 := by
        simp [tally]
      cases hf : findOne s code with
      | none =>
          have hocc : occ s code = 0 := occ_eq_zero_of_findOne_none hf
          have hotally : tally other = 0 := by
            rw [hocc, htally0] at heq
            omega
          have hoerr : ∀ e, other.res ≠ some (Except.error e) := by
            intro e he
            have h9 := (hother.2 e he).2
            omega
          have hocc2 : occ ({ shortCode := code, originalUrl := url, clicks := 0, lastClicked := none, createdAt := now } :: s) code = occ s code + 1 := by
            rw [occ, occ, List.countP_cons]
            simp
          simp only [createStep, saveNew, hf]
          refine ⟨?_, ?_, ?_, ?_⟩
          · rw [hocc2, hocc, hotally]
            simp [tally]
          · rw [hocc2, hocc]
          · exact ⟨by simp, by simp⟩
          · refine ⟨hother.1, ?_⟩
            intro e he
            exact absurd he (hoerr e)
      | some r =>
          have hocc : occ s code = 1 :=
            Nat.le_antisymm hle (occ_pos_of_findOne_some hf)
          simp only [createStep, saveNew, hf]
          refine ⟨?_, hle, ?_, hother⟩
          · rw [htally0] at heq
            simpa [tally] using heq
          · refine ⟨by simp, ?_⟩
            intro e he
            simp only [Option.some.injEq, Except.error.injEq] at he
            exact ⟨Or.inr he.symm, hocc⟩
  | done =>
      simp only [createStep]
      exact ⟨heq, hle, ht, hother⟩

theorem createPairStep_inv (code url1 url2 : String) (now1 now2 : Nat)
    (σ : CreatePair) (b : Bool) (h : pairInv code σ) :
    pairInv code (createPairStep code url1 url2 now1 now2 σ b) := by
  obtain ⟨heq, hle, ht1, ht2⟩ := h
  cases b with
  | true =>
      have h5 := createStep_inv code url1 now1 σ.store σ.t1 σ.t2 heq hle ht1 ht2
      simp only [createPairStep]
      exact ⟨h5.1, h5.2.1, h5.2.2.1, h5.2.2.2⟩
  | false =>
      have h5 := createStep_inv code url2 now2 σ.store σ.t2 σ.t1 (by omega) hle ht2 ht1
      simp only [createPairStep]
      refine ⟨?_, h5.2.1, h5.2.2.2, h5.2.2.1⟩
      dsimp only
      have h6 := h5.1
      omega

theorem runCreatePair_inv (code url1 url2 : String) (now1 now2 : Nat)
    (sched : List Bool) :
    ∀ σ : CreatePair, pairInv code σ →
      pairInv code (runCreatePair code url1 url2 now1 now2 σ sched) := by
  induction sched with
  | nil =>
      intro σ h
      exact h
  | cons b rest ih =>
      intro σ h
      have h7 := ih (createPairStep code url1 url2 now1 now2 σ b)
        (createPairStep_inv code url1 url2 now1 now2 σ b h)
      simpa [runCreatePair] using h7

/-- C1 amended: the service performs its uniqueness check and its insert as
two separate store operations (check-then-insert); nevertheless, because the
schema's unique index makes the insert itself an atomic insert-if-absent,
under every interleaving of two concurrent creates of the same fresh code
exactly one call succeeds and the other fails — with the service's
CodeExists when its check saw the winner's record, or with the storage
duplicate-key rejection when its check raced ahead of the winner's insert —
and the final store holds exactly one record with the code: never two
successes and never a silent overwrite. -/
theorem concurrent_create_exactly_one_success (code url1 url2 : String)
    (now1 now2 : Nat) (s0 : Store) (sched : List Bool) (σ : CreatePair)
    (hrun : σ = runCreatePair code url1 url2 now1 now2
        { store := s0, t1 := initCreateThread, t2 := initCreateThread } sched)
    (h0 : occ s0 code = 0)
    (h1 : σ.t1.phase = CreatePhase.done)
    (h2 : σ.t2.phase = CreatePhase.done) :
    occ σ.store code = 1
    ∧ ((σ.t1.res = some (Except.ok ())
          ∧ ∃ e, σ.t2.res = some (Except.error e)
              ∧ (e = MESSAGES.CODE_EXISTS ∨ e = dupKeyMessage))
      ∨ (σ.t2.res = some (Except.ok ())
          ∧ ∃ e, σ.t1.res = some (Except.error e)
              ∧ (e = MESSAGES.CODE_EXISTS ∨ e = dupKeyMessage))) := by
  have hinit : pairInv code
      { store := s0, t1 := initCreateThread, t2 := initCreateThread } := by
    refine ⟨by simp [h0, tally, initCreateThread], by simp [h0], ?_, ?_⟩
    · exact ⟨by simp [initCreateThread], by simp [initCreateThread]⟩
    · exact ⟨by simp [initCreateThread], by simp [initCreateThread]⟩
  have hinv : pairInv code σ := by
    rw [hrun]
    exact runCreatePair_inv code url1 url2 now1 now2 sched _ hinit
  obtain ⟨heq, hle, ht1, ht2⟩ := hinv
  cases hres1 : σ.t1.res with
  | none =>
      have h8 := ht1.1.mpr h1
      rw [hres1] at h8
      simp at h8
  | some v1 =>
      cases hres2 : σ.t2.res with
      | none =>
          have h8 := ht2.1.mpr h2
          rw [hres2] at h8
          simp at h8
      | some v2 =>
          cases v1 with
          | ok u1 =>
              cases u1
              cases v2 with
              | ok u2 =>
                  cases u2
                  have e1 : tally σ.t1 = 1 := by simp [tally, hres1]
                  have e2 : tally σ.t2 = 1 := by simp [tally, hres2]
                  rw [e1, e2] at heq
                  omega
              | error e =>
                  exact ⟨(ht2.2 e hres2).2, Or.inl ⟨rfl, e, rfl, (ht2.2 e hres2).1⟩⟩
          | error e =>
              cases v2 with
              | ok u2 =>
                  cases u2
                  exact ⟨(ht1.2 e hres1).2, Or.inr ⟨rfl, e, rfl, (ht1.2 e hres1).1⟩⟩
              | error e2 =>
                  have o1 := (ht1.2 e hres1).2
                  have q1 : tally σ.t1 = 0 := by simp [tally, hres1]
                  have q2 : tally σ.t2 = 0 := by simp [tally, hres2]
                  rw [q1, q2] at heq
                  omega

/-- The racy interleaving of two creates of the same code from the empty
store: both existence checks run first, then both inserts. -/
def racyCreateRun : CreatePair :=
  runCreatePair "abc123" "https://a.example" "https://b.example" 1 2
    { store := [], t1 := initCreateThread, t2 := initCreateThread }
    [true, false, true, false]

/-- C1 counterexample: under the check-check-insert-insert interleaving the
second caller's own existence check passes (its found flag stays false), yet
its later, separately scheduled insert fails against the unique index with
the raw storage duplicate-key error while the first caller succeeds.  The
uniqueness check and the insert of one createLink call are thus two distinct
store operations with an interleaving point between them — create is
implemented as a separate existence check followed by an insert, which is
exactly what the claim prohibits — and the loser's failure is the raw
storage rejection, not the service's CodeExists. -/
theorem create_check_then_insert_race :
    racyCreateRun.t1.res = some (Except.ok ())
    ∧ racyCreateRun.t2.found = false
    ∧ racyCreateRun.t2.res = some (Except.error dupKeyMessage)
    ∧ racyCreateRun.t2.res ≠ some (Except.error MESSAGES.CODE_EXISTS) := by
  decide

theorem concurrent_create_exactly_one_success_witness :
    racyCreateRun = runCreatePair "abc123" "https://a.example" "https://b.example"
        1 2 { store := [], t1 := initCreateThread, t2 := initCreateThread }
        [true, false, true, false]
    ∧ occ [] "abc123" = 0
    ∧ racyCreateRun.t1.phase = CreatePhase.done
    ∧ racyCreateRun.t2.phase = CreatePhase.done
    ∧ (occ racyCreateRun.store "abc123" = 1
      ∧ ((racyCreateRun.t1.res = some (Except.ok ())
            ∧ ∃ e, racyCreateRun.t2.res = some (Except.error e)
                ∧ (e = MESSAGES.CODE_EXISTS ∨ e = dupKeyMessage))
        ∨ (racyCreateRun.t2.res = some (Except.ok ())
            ∧ ∃ e, racyCreateRun.t1.res = some (Except.error e)
                ∧ (e = MESSAGES.CODE_EXISTS ∨ e = dupKeyMessage)))) :=
  ⟨rfl, rfl, by decide, by decide,
    concurrent_create_exactly_one_success "abc123" "https://a.example"
      "https://b.example" 1 2 [] [true, false, true, false] racyCreateRun
      rfl rfl (by decide) (by decide)⟩

/-- Control points of one in-flight resolve (redirect) call: the lookup
(`getLinkByCode`), then the write-back of the in-memory snapshot it obtained
(`incrementClicks` ending in `link.save()`), then completion. -/
inductive ResolvePhase where
  | lookup
  | write (snapshot : LinkRecord)
  | done
deriving DecidableEq

/-- One in-flight resolve caller: its control point (holding the document
snapshot between lookup and write-back), its timestamp, and its outcome. -/
structure ResolveThread where
  phase : ResolvePhase
  stamp : Nat
  res : Option (Except String LinkRecord)
deriving DecidableEq

def initResolveThread (stamp : Nat) : ResolveThread :=
  { phase := ResolvePhase.lookup, stamp := stamp, res := none }

/-- One atomic store step of the redirect path: `lookup` runs getLinkByCode
and keeps the returned document in memory; `write` runs incrementClicks on
that snapshot — the service increments the possibly stale in-memory copy and
writes it back, rather than issuing an atomic storage-level increment. -/
def resolveStep (code : String) (s : Store) (t : ResolveThread) :
    Store × ResolveThread :=
  match t.phase with
  | ResolvePhase.lookup =>
      match getLinkByCode s code with
      | none => (s, { t with phase := ResolvePhase.done, res := some (Except.error MESSAGES.LINK_NOT_FOUND) })
      | some link => (s, { t with phase := ResolvePhase.write link })
  | ResolvePhase.write link =>
      ((incrementClicks s link t.stamp).2,
        { t with phase := ResolvePhase.done, res := some (Except.ok (incrementClicks s link t.stamp).1) })
  | ResolvePhase.done => (s, t)

/-- Joint state of two concurrent resolve calls over the shared store. -/
structure ResolvePair where
  store : Store
  t1 : ResolveThread
  t2 : ResolveThread
deriving DecidableEq

def resolvePairStep (code : String) (σ : ResolvePair) : Bool → ResolvePair
  | true =>
      { store := (resolveStep code σ.store σ.t1).1,
        t1 := (resolveStep code σ.store σ.t1).2, t2 := σ.t2 }
  | false =>
      { store := (resolveStep code σ.store σ.t2).1,
        t1 := σ.t1, t2 := (resolveStep code σ.store σ.t2).2 }

/-- Runs the two concurrent resolves under an arbitrary interleaving. -/
def runResolvePair (code : String) (σ : ResolvePair) (sched : List Bool) :
    ResolvePair :=
  sched.foldl (resolvePairStep code) σ

/-- The lookup-lookup-write-write interleaving of two resolves of the same
existing code (clicks 0), with timestamps 5 and 7. -/
def lostUpdateRun : ResolvePair :=
  runResolvePair "abc123"
    { store := [rec0], t1 := initResolveThread 5, t2 := initResolveThread 7 }
    [true, false, true, false]

/-- C2 (code-bug evidence): two concurrent resolves of the same code, both
looking the document up before either writes, both report success — yet the
final clicks value is 1, not 2: the second write-back of a stale in-memory
snapshot erases the first increment.  The increment-and-touch of the service
is a read, mutate-in-memory, write-back sequence, not an atomic
storage-level read-modify-write, so a concurrent increment is lost,
contradicting the claim and the code's own comment that the update is
atomic. -/
theorem resolve_lost_update :
    lostUpdateRun.t1.res = some (Except.ok rec1)
    ∧ lostUpdateRun.t2.res = some (Except.ok { rec1 with lastClicked := some 7 })
    ∧ lostUpdateRun.store = [{ rec1 with lastClicked := some 7 }]
    ∧ occ lostUpdateRun.store "abc123" = 1
    ∧ (lostUpdateRun.store.map (fun r => r.clicks)) = [1] := by
  decide

end TinyLink
